import Mathlib

set_option maxRecDepth 8000

/-!
Verification of the PDF ingestion pipeline of the Puja AI repository
(`backend/ingestion.py`, `backend/embeddings_helper.py`, `backend/chroma_client.py`).

The Python code is shallowly embedded: every definition below mirrors one
Python function or method, translated statement by statement.  Python strings
become Lean `String`/`List Char`, Python dicts used as records become Lean
structures, the file system, the PDF parsing libraries, the MD5 hash, the
`RecursiveCharacterTextSplitter` and the ChromaDB store are kept abstract as
explicit function parameters (`Env`, `PdfFile`), since they are external
collaborators of the code under verification.
-/

namespace PujaSpec

/-! ### Python string primitives

Models of the Python `str` operations and the two `re.sub` calls used by
`ingestion.py`.  The character classes are modelled at ASCII level (the
corpus-facing code only manipulates text already decoded by the extractors;
Python's `\s`, `\d`, `\w` additionally match some non-ASCII characters,
which no claim depends on). -/

/-- Python whitespace (`str.strip()`, regex `\s`): space, tab, newline,
carriage return, vertical tab, form feed. -/
def isPySpace (c : Char) : Bool :=
  c == ' ' || c == '\t' || c == '\n' || c == '\r' || c == '\x0b' || c == '\x0c'

/-- Python-style word character (regex `\w`): alphanumeric or underscore. -/
def isWordChar (c : Char) : Bool :=
  c.isAlphanum || c == '_'

/-- Remove a trailing run of Python whitespace (the right half of `str.strip()`). -/
def dropTrailingWs : List Char → List Char
  | [] => []
  | c :: rest =>
    let r := dropTrailingWs rest
    if r.isEmpty && isPySpace c then [] else c :: r

/-- Python `str.strip()`: remove leading and trailing whitespace. -/
def pyStripList (l : List Char) : List Char :=
  dropTrailingWs (l.dropWhile isPySpace)

/-- Python `str.strip()` on `String`. -/
def pyStrip (s : String) : String :=
  ⟨pyStripList s.data⟩

/-- Python `str.split(sep)` for a single-character separator: splits at every
occurrence, keeping empty segments (`"".split('\n') == ['']`). -/
def splitOnChar (sep : Char) (l : List Char) : List (List Char) :=
  l.foldr
    (fun c acc =>
      if c == sep then [] :: acc
      else
        match acc with
        | [] => [[c]]
        | h :: t => (c :: h) :: t)
    [[]]

/-- Worker for `re.sub(r'\s+', ' ', text)`: the flag records whether the
previous character belonged to a whitespace run that has already emitted
its single replacement space. -/
def pySubWsAux : Bool → List Char → List Char
  | _, [] => []
  | inRun, c :: rest =>
    if isPySpace c then
      if inRun then pySubWsAux true rest else ' ' :: pySubWsAux true rest
    else c :: pySubWsAux false rest

/-- Python `re.sub(r'\s+', ' ', text)`: every maximal run of whitespace is
replaced by a single space. -/
def pySubWs (l : List Char) : List Char :=
  pySubWsAux false l

/-- Index of the last occurrence of a character, if any. -/
def lastIdxOf? (c : Char) (l : List Char) : Option Nat :=
  ((l.enum.filter (fun p => p.2 == c)).map (·.1)).getLast?

/-- Worker for `re.sub(r'\n\s*\n', '\n\n', text)` with explicit fuel.  A match
starts at a `'\n'`; the greedy `\s*` backtracks to the last `'\n'` inside the
maximal whitespace run that follows, the match is replaced by `"\n\n"`, and
scanning resumes after it (non-overlapping, left to right).  The fuel is the
input length, which every step strictly decreases, so the fuel-exhausted
branch is never taken. -/
def pySubNlRunFuel : Nat → List Char → List Char
  | 0, l => l
  | _ + 1, [] => []
  | fuel + 1, c :: rest =>
    if c == '\n' then
      let run := rest.takeWhile isPySpace
      match lastIdxOf? '\n' run with
      | some j => '\n' :: '\n' :: pySubNlRunFuel fuel (run.drop (j + 1) ++ rest.drop run.length)
      | none => c :: pySubNlRunFuel fuel rest
    else c :: pySubNlRunFuel fuel rest

/-- Python `re.sub(r'\n\s*\n', '\n\n', text)`. -/
def pySubNlRun (l : List Char) : List Char :=
  pySubNlRunFuel l.length l

/-- Worker for whitespace `str.split()`: accumulates the current token in
reverse. -/
def pySplitAux : List Char → List Char → List String
  | cur, [] => if cur.isEmpty then [] else [⟨cur.reverse⟩]
  | cur, c :: rest =>
    if isPySpace c then
      if cur.isEmpty then pySplitAux [] rest else (⟨cur.reverse⟩ : String) :: pySplitAux [] rest
    else pySplitAux (c :: cur) rest

/-- Python `str.split()` with no argument: split on whitespace runs,
dropping empty tokens. -/
def py_split (s : String) : List String :=
  pySplitAux [] s.data

/-- Python `set(s.split())`: the whitespace token set of a string. -/
def token_set (s : String) : Finset String :=
  (py_split s).toFinset

/-- Worker for Python `str.title()`: the flag records whether the previous
character was a letter. -/
def pyTitleAux : Bool → List Char → List Char
  | _, [] => []
  | prevAlpha, c :: rest =>
    if c.isAlpha then
      (if prevAlpha then c.toLower else c.toUpper) :: pyTitleAux true rest
    else c :: pyTitleAux false rest

/-- Python `str.title()` (ASCII letters). -/
def py_title (l : List Char) : List Char :=
  pyTitleAux false l

/-- The final path component (Python `Path.name`). -/
def last_component (s : String) : List Char :=
  match (splitOnChar '/' s.data).getLast? with
  | some l => l
  | none => s.data

/-- Python `Path.stem`: the final component without its last suffix (a dot at
position 0 does not start a suffix). -/
def stem_of (name : List Char) : List Char :=
  match lastIdxOf? '.' name with
  | none => name
  | some 0 => name
  | some i => name.take i

/-! ### `ingestion.py` — data model

A `PdfFile` models one PDF on disk as the ingestion code observes it: its
path, its raw byte content (`bytes`, used only for checksumming), and, for
each of the two extraction libraries, whether opening the document succeeds
and what text each page yields (`none` models both a per-page extraction
error and a `None` return, which the code treats identically by skipping the
page). -/

structure PdfFile where
  path : String
  bytes : String
  plumberOpenOk : Bool
  plumberPages : List (Option String)
  pypdfOpenOk : Bool
  pypdfPages : List (Option String)
deriving DecidableEq

/-- One entry of the `pages_data` list built by the extractors: the page
dictionaries `{"text": ..., "page": ..., "extraction_method": ...}`. -/
structure PageRec where
  text : String
  page : Nat
  extraction_method : String
deriving DecidableEq

/-- The metadata dictionary attached to a chunk by `create_chunks`.
`chunk_id` is `str(uuid.uuid4())` in the source — a fresh random identifier;
it is modelled as an uninterpreted placeholder `""` because no claim
depends on chunk ids. -/
structure ChunkMeta where
  book_title : String
  page : Nat
  chunk_id : String
  chunk_index : Nat
  source_file : String
  extraction_method : String
deriving DecidableEq

/-- A chunk document as handed to the ChromaDB store:
`{"page_content": ..., "metadata": {...}}`. -/
structure Chunk where
  page_content : String
  metadata : ChunkMeta
deriving DecidableEq

/-- The `self.stats` dictionary of `PDFIngestor`.  The derived
`average_chunks_per_pdf` display value (a float computed at the end of the
batch) is not modelled. -/
structure Stats where
  num_pdfs : Nat
  total_chunks : Nat
  skipped_pdfs : Nat
  errors : List String
deriving DecidableEq

/-- The mutable state of a `PDFIngestor`: the checksum ledger
`self.processed_files` (a dict from file path to checksum, modelled as an
association list with unique keys) and `self.stats`. -/
structure IngestState where
  processedFiles : List (String × String)
  stats : Stats
deriving DecidableEq

/-- The external collaborators of the pipeline, kept abstract:
`force` is the `--force` flag; `md5` is `hashlib.md5(...).hexdigest()` on the
file's bytes (a deterministic function of content; the value `""` models the
exception branch of `calculate_file_checksum`); `split` is
`RecursiveCharacterTextSplitter.split_text`; `store` is
`ChromaClientWrapper.add_documents`, which returns `True` on success and
`False` when ChromaDB raises. -/
structure Env where
  force : Bool
  md5 : String → String
  split : String → List String
  store : List Chunk → Bool

/-- Python `dict.get(k, "")` on the ledger. -/
def ledger_lookup (led : List (String × String)) (k : String) : Option String :=
  (led.find? (fun e => e.1 == k)).map (·.2)

/-- `self.processed_files.get(file_str, "")`. -/
def ledger_get (led : List (String × String)) (k : String) : String :=
  (ledger_lookup led k).getD ""

/-- `self.processed_files[file_str] = checksum`: dict upsert. -/
def ledger_set (led : List (String × String)) (k v : String) : List (String × String) :=
  if led.any (fun e => e.1 == k) then
    led.map (fun e => if e.1 == k then (k, v) else e)
  else led ++ [(k, v)]

/-! ### `ingestion.py` — extraction -/

/-- Python `enumerate(pages, 1)`. -/
def enumerate1 {α : Type} : Nat → List α → List (Nat × α)
  | _, [] => []
  | i, a :: rest => (i, a) :: enumerate1 (i + 1) rest

/-- Shared body of `extract_text_with_pdfplumber` / `extract_text_with_pypdf2`:
if opening the document fails the method returns `[]`; otherwise pages are
enumerated 1-based and a page is kept iff its extracted text is non-`None`
and has non-empty `strip()` (`if text and text.strip():`); per-page errors
(`none`) are skipped with `continue`. -/
def extract_pages (openOk : Bool) (pageTexts : List (Option String)) (method : String) :
    List PageRec :=
  if openOk then
    (enumerate1 1 pageTexts).filterMap fun pr =>
      match pr.2 with
      | none => none
      | some t => if pyStrip t = "" then none else some ⟨t, pr.1, method⟩
  else []

/-- `PDFIngestor.extract_text_with_pdfplumber`. -/
def extract_text_with_pdfplumber (f : PdfFile) : List PageRec :=
  extract_pages f.plumberOpenOk f.plumberPages "pdfplumber"

/-- `PDFIngestor.extract_text_with_pypdf2`. -/
def extract_text_with_pypdf2 (f : PdfFile) : List PageRec :=
  extract_pages f.pypdfOpenOk f.pypdfPages "pypdf2"

/-! ### `ingestion.py` — cleaning -/

/-- The body of the line-filtering loop of `PDFIngestor.clean_text`: the line
is stripped, then dropped if empty, if purely numeric (`^\d+$`), if shorter
than 3 characters, or if it consists only of non-word non-space characters
(`^[^\w\s]*$`); surviving lines are kept in stripped form. -/
def keep_line (line : List Char) : Option (List Char) :=
  let l := pyStripList line
  if l = [] then none
  else if l.all (fun c => c.isDigit) then none
  else if l.length < 3 then none
  else if l.all (fun c => !(isWordChar c) && !(isPySpace c)) then none
  else some l

/-- `PDFIngestor.clean_text`: split into lines, filter lines, rejoin with
`'\n'`, then `re.sub(r'\s+', ' ', ...)`, `re.sub(r'\n\s*\n', '\n\n', ...)`
and a final `strip()`. -/
def clean_text (text : String) : String :=
  if text = "" then ""
  else
    let cleaned_lines := (splitOnChar '\n' text.data).filterMap keep_line
    let joined := List.intercalate ['\n'] cleaned_lines
    ⟨pyStripList (pySubNlRun (pySubWs joined))⟩

/-- The per-page list `[line.strip() for line in lines if line.strip()]`
used by `detect_repeated_headers_footers`. -/
def page_nonempty_lines (p : PageRec) : List String :=
  (((splitOnChar '\n' p.text.data).map pyStripList).filter (fun l => !l.isEmpty)).map
    (fun l => (⟨l⟩ : String))

/-- Python `max(set(xs), key=xs.count)`: an element of maximal multiplicity.
Set iteration order is unspecified in Python, so among tied maxima the model
fixes the first one in order of first occurrence; every use in the source
has a unique maximum. -/
def most_common (l : List String) : String :=
  match l.dedup with
  | [] => ""
  | h :: t => t.foldl (fun best x => if l.count best < l.count x then x else best) h

/-- `PDFIngestor.detect_repeated_headers_footers`.  The float comparisons
`len(set(xs)) < len(xs) * 0.3` and `count >= len(pages) * 0.5` are modelled
by the exact rational tests `10*|set| < 3*|xs|` and `2*count ≥ |pages|`;
these agree with the binary64 evaluation at every size a document can
realistically have (in particular `10 * 0.3 == 3.0` exactly in binary64). -/
def detect_repeated_headers_footers (pages_data : List PageRec) : List String :=
  if pages_data.length < 3 then []
  else
    let first_lines := pages_data.filterMap (fun p => (page_nonempty_lines p).head?)
    let last_lines := pages_data.filterMap (fun p =>
      if 1 < (page_nonempty_lines p).length then (page_nonempty_lines p).getLast? else none)
    let header :=
      if 10 * first_lines.dedup.length < 3 * first_lines.length then
        let m := most_common first_lines
        if pages_data.length ≤ 2 * first_lines.count m then [m] else []
      else []
    let footer :=
      if 10 * last_lines.dedup.length < 3 * last_lines.length then
        let m := most_common last_lines
        if pages_data.length ≤ 2 * last_lines.count m then [m] else []
      else []
    header ++ footer

/-- `PDFIngestor.remove_headers_footers`: drop every line whose stripped form
equals the stripped form of a detected pattern. -/
def remove_headers_footers (text : String) (repeated_patterns : List String) : String :=
  if repeated_patterns = [] then text
  else
    let lines := splitOnChar '\n' text.data
    let filtered_lines := lines.filter (fun line =>
      repeated_patterns.all (fun pat => pyStripList line ≠ pyStripList pat.data))
    ⟨List.intercalate ['\n'] filtered_lines⟩

/-- `PDFIngestor.extract_and_process_pdf`: pdfplumber first; PyPDF2 only if
pdfplumber yielded zero pages for the whole document; then header/footer
removal and `clean_text` per page, and pages with at most 50 characters of
cleaned text are dropped. -/
def extract_and_process_pdf (f : PdfFile) : List PageRec :=
  let pages0 := extract_text_with_pdfplumber f
  let pages1 := if pages0 = [] then extract_text_with_pypdf2 f else pages0
  if pages1 = [] then []
  else
    let repeated_patterns := detect_repeated_headers_footers pages1
    let cleaned := pages1.map (fun p =>
      { p with text := clean_text (remove_headers_footers p.text repeated_patterns) })
    cleaned.filter (fun p => 50 < p.text.length)

/-! ### `ingestion.py` — chunking and orchestration -/

/-- `PDFIngestor.create_chunks`: pages with empty text or stripped length
below 50 are skipped; the page text is split by the (abstract) text splitter;
chunks whose stripped text is shorter than 30 characters are skipped; each
kept chunk stores the stripped text and its metadata. -/
def create_chunks (split_text : String → List String) (pages_data : List PageRec)
    (book_title : String) : List Chunk :=
  (pages_data.map (fun p =>
    if p.text = "" ∨ (pyStrip p.text).length < 50 then []
    else
      (split_text p.text).enum.filterMap (fun ic =>
        if (pyStrip ic.2).length < 30 then none
        else
          some
            { page_content := pyStrip ic.2,
              metadata :=
                { book_title := book_title, page := p.page, chunk_id := "",
                  chunk_index := ic.1, source_file := book_title,
                  extraction_method := p.extraction_method } }))).flatten

/-- `PDFIngestor.should_process_file`: always true under `--force`; false if
checksum computation failed (returned `""`); otherwise true iff the current
checksum differs from the stored one (`dict.get` default `""`). -/
def should_process_file (env : Env) (led : List (String × String)) (f : PdfFile) : Bool :=
  if env.force then true
  else
    let cur := env.md5 f.bytes
    if cur == "" then false
    else cur != ledger_get led f.path

/-- `file_path.name`, used in log/error messages. -/
def file_name_of (f : PdfFile) : String :=
  ⟨last_component f.path⟩

/-- `file_path.stem.replace('_', ' ').replace('-', ' ').title()`. -/
def book_title_of (f : PdfFile) : String :=
  ⟨py_title ((stem_of (last_component f.path)).map
    (fun c => if c == '_' then ' ' else if c == '-' then ' ' else c))⟩

/-- The chunk list `process_single_pdf` builds for a file: `create_chunks`
applied to the processed pages (the Python code computes `pages_data` once
and reuses it; all functions involved are pure, so naming the result is
equivalent). -/
def chunks_for (env : Env) (f : PdfFile) : List Chunk :=
  create_chunks env.split (extract_and_process_pdf f) (book_title_of f)

/-- `self.stats["errors"].append(msg)`. -/
def add_error (st : IngestState) (msg : String) : IngestState :=
  { st with stats := { st.stats with errors := st.stats.errors ++ [msg] } }

/-- `PDFIngestor.process_single_pdf`: skip via the ledger; extract and clean;
chunk; hand the chunks to the store; only on store success update the
in-memory ledger with the file's checksum and the success statistics.  The
`try/except` wrapper of the source is not reachable in the model because all
modelled operations are total; store failure is `add_documents` returning
`False`. -/
def process_single_pdf (env : Env) (st : IngestState) (f : PdfFile) : Nat × IngestState :=
  if should_process_file env st.processedFiles f = false then
    (0, { st with stats := { st.stats with skipped_pdfs := st.stats.skipped_pdfs + 1 } })
  else if extract_and_process_pdf f = [] then
    (0, add_error st ("No text extracted from " ++ file_name_of f))
  else if chunks_for env f = [] then
    (0, add_error st ("No chunks created from " ++ file_name_of f))
  else if env.store (chunks_for env f) = true then
    ((chunks_for env f).length,
      { processedFiles := ledger_set st.processedFiles f.path (env.md5 f.bytes),
        stats :=
          { st.stats with
            num_pdfs := st.stats.num_pdfs + 1,
            total_chunks := st.stats.total_chunks + (chunks_for env f).length } })
  else
    (0, add_error st ("Failed to add " ++ file_name_of f ++ " to ChromaDB"))

/-- `PDFIngestor.process_all_pdfs`: the per-file loop over the directory
listing.  The directory-existence and empty-directory early returns, the
final `save_processed_files` flush to disk (the persisted ledger is exactly
`processedFiles` of the returned state) and the derived average statistic
are I/O and display concerns outside the model. -/
def process_all_pdfs (env : Env) (files : List PdfFile) (st : IngestState) : IngestState :=
  files.foldl (fun s f => (process_single_pdf env s f).2) st

/-- The all-zero `self.stats` a fresh `PDFIngestor` starts with. -/
def initialStats : Stats :=
  ⟨0, 0, 0, []⟩

/-! ### `embeddings_helper.py` — deduplication -/

/-- Jaccard similarity of the whitespace token sets of two strings,
`overlap / union` computed exactly in `ℚ` (the Python float quotient and
threshold comparison agree with the exact rational one at all realistic
token-set sizes; in particular `9/10 == 0.9` exactly in binary64).
`mkRat` is the exact rational quotient; the source divides only under its
`union > 0` guard, where `mkRat` coincides with field division. -/
def jaccard (s t : String) : ℚ :=
  mkRat ((token_set s ∩ token_set t).card : Int) (token_set s ∪ token_set t).card

/-- The body of the inner loop of `deduplicate_chunks`: the candidate
registers as a duplicate of an accepted chunk iff both contents are
non-empty strings, the token-set union is non-empty, and the Jaccard
similarity strictly exceeds the threshold. -/
def is_dup_pair (threshold : ℚ) (cand ex : Chunk) : Bool :=
  decide (0 < cand.page_content.length) && decide (0 < ex.page_content.length) &&
    (decide (0 < (token_set cand.page_content ∪ token_set ex.page_content).card) &&
      decide (threshold < jaccard cand.page_content ex.page_content))

/-- The main loop of `deduplicate_chunks` over the remaining candidates,
carrying the accepted list. -/
def dedupAux (threshold : ℚ) (ded : List Chunk) : List Chunk → List Chunk
  | [] => ded
  | c :: rest =>
    if ded.any (fun e => is_dup_pair threshold c e) then dedupAux threshold ded rest
    else dedupAux threshold (ded ++ [c]) rest

/-- `embeddings_helper.deduplicate_chunks`: the first chunk is always kept;
each later chunk is dropped iff it registers as a duplicate of some
already-accepted chunk.  This function is defined in the repository but is
never invoked by the ingestion pipeline (nor anywhere else). -/
def deduplicate_chunks (chunks : List Chunk) (similarity_threshold : ℚ) : List Chunk :=
  match chunks with
  | [] => chunks
  | c0 :: rest => dedupAux similarity_threshold [c0] rest

/-- The first non-empty stripped line of a page text, as
`detect_repeated_headers_footers` sees it. -/
def first_nonempty_line (s : String) : Option String :=
  ((((splitOnChar '\n' s.data).map pyStripList).filter (fun l => !l.isEmpty)).head?).map
    (fun l => (⟨l⟩ : String))

/-- The first line of a text (everything before the first `'\n'`). -/
def first_line (s : String) : String :=
  match splitOnChar '\n' s.data with
  | [] => ""
  | h :: _ => ⟨h⟩

/-! ### Specification predicates -/

/-- The text has fully collapsed whitespace: every whitespace character is a
plain space `' '`, and no two adjacent characters are both whitespace (every
whitespace run has length one). -/
def collapsedWs : List Char → Bool
  | [] => true
  | [c] => !isPySpace c || c == ' '
  | c :: d :: rest => (!isPySpace c || (c == ' ' && !isPySpace d)) && collapsedWs (d :: rest)

/-! ### Concrete fixtures

Concrete environments, files and pages used by the witnesses,
counterexamples and failing-input evaluations below. -/

/-- A 60-character single-line page text (10 distinct tokens). -/
def tAlpha : String :=
  "Ganesh puja requires flowers incense and a clean altar space"

/-- A 68-character single-line page text. -/
def tBeta : String :=
  "Durga aarti needs lamps camphor vermilion and fresh marigold flowers"

/-- A 67-character single-line page text. -/
def tGamma : String :=
  "Lakshmi worship includes lotus flowers rice sweets and silver coins"

/-- Environment with a store that accepts every batch. -/
def env_ok : Env :=
  ⟨false, fun _ => "h", fun s => [s], fun _ => true⟩

/-- Environment with a store that rejects every batch. -/
def env_rej : Env :=
  ⟨false, fun _ => "h", fun s => [s], fun _ => false⟩

/-- Environment with the `--force` flag set. -/
def env_force : Env :=
  ⟨true, fun _ => "m", fun s => [s], fun _ => true⟩

/-- A readable one-page PDF whose single page extracts cleanly via pdfplumber. -/
def file_good : PdfFile :=
  ⟨"pdfs/guide_one.pdf", "B1", true, [some tAlpha], true, []⟩

/-- A corrupt PDF neither library can open. -/
def file_broken : PdfFile :=
  ⟨"pdfs/broken.pdf", "B2", false, [], false, []⟩

/-- A two-page PDF whose pages carry identical text. -/
def file_dup : PdfFile :=
  ⟨"pdfs/mantra_book.pdf", "B3", true, [some tAlpha, some tAlpha], true, []⟩

/-- The spec's fallback scenario: a 3-page document where pdfplumber yields
nothing on page 2 but PyPDF2 succeeds on all three pages. -/
def file_fallback : PdfFile :=
  ⟨"pdfs/three_pages.pdf", "B4", true, [some tAlpha, none, some tGamma], true,
    [some tAlpha, some tBeta, some tGamma]⟩

/-- A fresh ingestor state: empty ledger, zeroed statistics. -/
def st0 : IngestState :=
  ⟨[], initialStats⟩

/-- A 10-page document in which 8 pages share the first line "Chapter 3" and
the remaining two pages have distinct first lines (page 1 consists solely of
the shared line).  All last lines are distinct. -/
def cpages : List PageRec :=
  [⟨"Chapter 3", 1, "pdfplumber"⟩,
   ⟨"Chapter 3\nOpening rites described", 2, "pdfplumber"⟩,
   ⟨"Chapter 3\nMaterials for the altar", 3, "pdfplumber"⟩,
   ⟨"Chapter 3\nTimings and observances", 4, "pdfplumber"⟩,
   ⟨"Chapter 3\nMantras for the morning", 5, "pdfplumber"⟩,
   ⟨"Chapter 3\nOfferings and prasad", 6, "pdfplumber"⟩,
   ⟨"Chapter 3\nClosing aarti sequence", 7, "pdfplumber"⟩,
   ⟨"Chapter 3\nNotes on fasting days", 8, "pdfplumber"⟩,
   ⟨"Festival calendar overview\nRegional variations listed", 9, "pdfplumber"⟩,
   ⟨"Glossary of ritual terms\nSanskrit pronunciation guide", 10, "pdfplumber"⟩]

/-- Chunk with the given content and placeholder metadata, for the
`deduplicate_chunks` claims. -/
def mk_chunk (s : String) : Chunk :=
  ⟨s, ⟨"Book", 1, "", 0, "Book", "pdfplumber"⟩⟩

/-- 19 single-letter tokens a…s. -/
def chunk_a : Chunk := mk_chunk "a b c d e f g h i j k l m n o p q r s"

/-- 20 single-letter tokens a…t: Jaccard 19/20 with `chunk_a`. -/
def chunk_b : Chunk := mk_chunk "a b c d e f g h i j k l m n o p q r s t"

/-- 19 single-letter tokens b…t: Jaccard 19/20 with `chunk_b`, 18/20 with
`chunk_a`. -/
def chunk_c : Chunk := mk_chunk "b c d e f g h i j k l m n o p q r s t"

/-- A whitespace-only chunk: its token set is empty. -/
def chunk_ws : Chunk := mk_chunk " "

/-- The page-1 chunk `chunks_for env_force file_fallback` produces. -/
def chunk_fallback_w : Chunk :=
  ⟨tAlpha, ⟨"Three Pages", 1, "", 0, "Three Pages", "pdfplumber"⟩⟩

/-- A single usable page, for exercising `create_chunks` directly. -/
def page_floor_w : PageRec := ⟨tAlpha, 1, "pdfplumber"⟩

/-- The chunk `create_chunks (fun s => [s]) [page_floor_w] "T"` produces. -/
def chunk_floor_w : Chunk := ⟨tAlpha, ⟨"T", 1, "", 0, "T", "pdfplumber"⟩⟩

/-! ### Helper lemmas: whitespace normalization -/

/-- Every whitespace character in the output of the `\s+ → ' '` substitution
is a plain space. -/
theorem pySubWsAux_space_eq (l : List Char) :
    ∀ (b : Bool) (c : Char), c ∈ pySubWsAux b l → isPySpace c = true → c = ' ' := by
  induction l with
  | nil => intro b c h _; simp [pySubWsAux] at h
  | cons a rest ih =>
    intro b c h hs
    by_cases ha : isPySpace a
    · cases b with
      | true =>
        simp only [pySubWsAux, if_pos ha, if_pos rfl] at h
        exact ih true c h hs
      | false =>
        simp only [pySubWsAux, if_pos ha] at h
        rcases List.mem_cons.mp h with h1 | h2
        · exact h1
        · exact ih true c h2 hs
    · simp only [pySubWsAux, if_neg ha] at h
      rcases List.mem_cons.mp h with h1 | h2
      · subst h1; exact absurd hs ha
      · exact ih false c h2 hs

/-- After a whitespace run has been collapsed, the next emitted character is
not whitespace. -/
theorem pySubWsAux_true_head (l : List Char) :
    ∀ (c : Char) (rest : List Char), pySubWsAux true l = c :: rest → isPySpace c = false := by
  induction l with
  | nil => intro c rest h; simp [pySubWsAux] at h
  | cons a tl ih =>
    intro c rest h
    by_cases ha : isPySpace a
    · simp only [pySubWsAux, if_pos ha, if_pos rfl] at h
      exact ih c rest h
    · simp only [pySubWsAux, if_neg ha] at h
      cases h
      exact Bool.eq_false_iff.mpr ha

/-- The `\s+ → ' '` substitution produces fully collapsed whitespace. -/
theorem collapsedWs_pySubWsAux (l : List Char) :
    ∀ b : Bool, collapsedWs (pySubWsAux b l) = true := by
  induction l with
  | nil => intro b; simp [pySubWsAux, collapsedWs]
  | cons a tl ih =>
    intro b
    by_cases ha : isPySpace a
    · cases b with
      | true => simpa only [pySubWsAux, if_pos ha, if_pos rfl] using ih true
      | false =>
        simp only [pySubWsAux, if_pos ha]
        rcases hx : pySubWsAux true tl with _ | ⟨d, rest⟩
        · simp [collapsedWs]
        · have hd : isPySpace d = false := pySubWsAux_true_head tl d rest hx
          have := ih true
          rw [hx] at this
          simp [collapsedWs, hd, this]
    · simp only [pySubWsAux, if_neg ha]
      rcases hx : pySubWsAux false tl with _ | ⟨d, rest⟩
      · simp [collapsedWs, ha]
      · have := ih false
        rw [hx] at this
        simp [collapsedWs, ha, this]

/-- Collapsed whitespace is preserved by dropping a head element. -/
theorem collapsedWs_tail {c : Char} {l : List Char} (h : collapsedWs (c :: l) = true) :
    collapsedWs l = true := by
  cases l with
  | nil => simp [collapsedWs]
  | cons d rest =>
    simp only [collapsedWs, Bool.and_eq_true] at h
    exact h.2

/-- Collapsed whitespace is preserved by `dropWhile`. -/
theorem collapsedWs_dropWhile {l : List Char} (h : collapsedWs l = true) :
    collapsedWs (l.dropWhile isPySpace) = true := by
  induction l with
  | nil => exact h
  | cons a tl ih =>
    by_cases ha : isPySpace a
    · rw [List.dropWhile_cons_of_pos ha]
      exact ih (collapsedWs_tail h)
    · rwa [List.dropWhile_cons_of_neg ha]

/-- If `dropTrailingWs` returns a non-empty list, its head is the head of the
input. -/
theorem dropTrailingWs_cons {a : Char} {tl : List Char} {c : Char} {r : List Char}
    (h : dropTrailingWs (a :: tl) = c :: r) : c = a ∧ r = dropTrailingWs tl := by
  by_cases hc : (dropTrailingWs tl).isEmpty && isPySpace a
  · simp [dropTrailingWs, hc] at h
  · simp only [dropTrailingWs, if_neg hc] at h
    exact ⟨(List.cons.injEq .. ▸ h).1.symm, ((List.cons.injEq .. ▸ h).2).symm⟩

/-- Collapsed whitespace is preserved by dropping trailing whitespace. -/
theorem collapsedWs_dropTrailingWs {l : List Char} (h : collapsedWs l = true) :
    collapsedWs (dropTrailingWs l) = true := by
  induction l with
  | nil => exact h
  | cons a tl ih =>
    have htl : collapsedWs (dropTrailingWs tl) = true := ih (collapsedWs_tail h)
    by_cases hc : (dropTrailingWs tl).isEmpty && isPySpace a
    · simp [dropTrailingWs, hc, collapsedWs]
    · simp only [dropTrailingWs, if_neg hc]
      rcases hr : dropTrailingWs tl with _ | ⟨d, r⟩
      · -- the trailing strip of the tail is empty, so `a` is not whitespace
        rw [hr] at hc
        simp only [List.isEmpty_nil, Bool.true_and] at hc
        simp [collapsedWs, hc]
      · -- the head of `dropTrailingWs tl` is the head of `tl`
        cases tl with
        | nil => simp [dropTrailingWs] at hr
        | cons a2 tl2 =>
          obtain ⟨rfl, _⟩ := dropTrailingWs_cons hr
          rw [hr] at htl
          cases h2 : collapsedWs (d :: r)
          · rw [h2] at htl; exact absurd htl (by simp)
          · have hfst : (!isPySpace a || (a == ' ' && !isPySpace d)) = true := by
              have := h
              simp only [collapsedWs, Bool.and_eq_true] at this
              exact this.1
            simp [collapsedWs, hfst, h2]

/-- `str.strip()` preserves collapsed whitespace. -/
theorem collapsedWs_pyStripList {l : List Char} (h : collapsedWs l = true) :
    collapsedWs (pyStripList l) = true :=
  collapsedWs_dropTrailingWs (collapsedWs_dropWhile h)

/-- Membership in `dropTrailingWs` implies membership in the input. -/
theorem mem_of_mem_dropTrailingWs {c : Char} {l : List Char}
    (h : c ∈ dropTrailingWs l) : c ∈ l := by
  induction l with
  | nil => exact h
  | cons a tl ih =>
    by_cases hc : (dropTrailingWs tl).isEmpty && isPySpace a
    · simp [dropTrailingWs, hc] at h
    · simp only [dropTrailingWs, if_neg hc] at h
      rcases List.mem_cons.mp h with h1 | h2
      · simp [h1]
      · exact List.mem_cons_of_mem _ (ih h2)

/-- Membership in `str.strip()` implies membership in the input. -/
theorem mem_of_mem_pyStripList {c : Char} {l : List Char} (h : c ∈ pyStripList l) : c ∈ l :=
  (List.dropWhile_sublist isPySpace).mem (mem_of_mem_dropTrailingWs h)

/-- The `\n\s*\n → '\n\n'` substitution is the identity on newline-free text. -/
theorem pySubNlRunFuel_no_nl (fuel : Nat) :
    ∀ l : List Char, '\n' ∉ l → pySubNlRunFuel fuel l = l := by
  induction fuel with
  | zero => intro l _; rfl
  | succ n ih =>
    intro l hl
    cases l with
    | nil => rfl
    | cons c rest =>
      have hc : (c == '\n') = false := by
        simp only [beq_eq_false_iff_ne, ne_eq]
        intro h; exact hl (h ▸ List.mem_cons_self c rest)
      simp only [pySubNlRunFuel, hc, Bool.false_eq_true, if_false, List.cons.injEq, true_and]
      exact ih rest (fun h => hl (List.mem_cons_of_mem _ h))

/-- `pySubNlRun` is the identity on newline-free text. -/
theorem pySubNlRun_no_nl {l : List Char} (hl : '\n' ∉ l) : pySubNlRun l = l :=
  pySubNlRunFuel_no_nl l.length l hl

/-- The output of the `\s+ → ' '` substitution contains no newline. -/
theorem no_nl_pySubWs (l : List Char) : '\n' ∉ pySubWs l := by
  intro h
  have := pySubWsAux_space_eq l false '\n' h (by decide)
  exact absurd this (by decide)

/-! ### Helper lemmas: `str.strip()` -/

/-- Dropping trailing whitespace is idempotent. -/
theorem dropTrailingWs_idem (l : List Char) :
    dropTrailingWs (dropTrailingWs l) = dropTrailingWs l := by
  induction l with
  | nil => rfl
  | cons a tl ih =>
    have h1 : dropTrailingWs (a :: tl) =
        if (dropTrailingWs tl).isEmpty && isPySpace a then [] else a :: dropTrailingWs tl :=
      rfl
    by_cases hc : (dropTrailingWs tl).isEmpty && isPySpace a
    · rw [h1, if_pos hc]; rfl
    · rw [h1, if_neg hc]
      have h2 : dropTrailingWs (a :: dropTrailingWs tl) =
          if (dropTrailingWs (dropTrailingWs tl)).isEmpty && isPySpace a then []
          else a :: dropTrailingWs (dropTrailingWs tl) := rfl
      rw [h2, ih, if_neg hc]

/-- If `dropWhile p` returns a cons, its head fails `p`. -/
theorem dropWhile_eq_cons_not {p : Char → Bool} {l : List Char} {c : Char} {r : List Char}
    (h : l.dropWhile p = c :: r) : p c = false := by
  induction l with
  | nil => exact absurd h (by simp)
  | cons a tl ih =>
    by_cases ha : p a
    · rw [List.dropWhile_cons_of_pos ha] at h
      exact ih h
    · rw [List.dropWhile_cons_of_neg ha] at h
      cases h
      exact Bool.eq_false_iff.mpr ha

/-- A non-empty `str.strip()` result starts with a non-whitespace character. -/
theorem pyStripList_head_not_space {l : List Char} {c : Char} {r : List Char}
    (h : pyStripList l = c :: r) : isPySpace c = false := by
  unfold pyStripList at h
  rcases hm : l.dropWhile isPySpace with _ | ⟨a, t⟩
  · rw [hm] at h; exact absurd h (by simp [dropTrailingWs])
  · rw [hm] at h
    obtain ⟨rfl, _⟩ := dropTrailingWs_cons h
    exact dropWhile_eq_cons_not hm

/-- `str.strip()` is idempotent. -/
theorem pyStripList_idem (l : List Char) : pyStripList (pyStripList l) = pyStripList l := by
  have hdw : (pyStripList l).dropWhile isPySpace = pyStripList l := by
    rcases h : pyStripList l with _ | ⟨c, r⟩
    · rfl
    · exact List.dropWhile_cons_of_neg (by simp [pyStripList_head_not_space h])
  show dropTrailingWs ((pyStripList l).dropWhile isPySpace) = pyStripList l
  rw [hdw]
  exact dropTrailingWs_idem _

/-! ### Helper lemmas: `clean_text` -/

/-- Characterization of `clean_text`: the second substitution
`re.sub(r'\n\s*\n', '\n\n', ...)` is always the identity, because the first
substitution has already replaced every newline by a space. -/
theorem clean_text_data (s : String) :
    (clean_text s).data =
      pyStripList (pySubWs
        (List.intercalate ['\n'] ((splitOnChar '\n' s.data).filterMap keep_line))) := by
  by_cases hs : s = ""
  · subst hs; rfl
  · simp only [clean_text, if_neg hs]
    rw [pySubNlRun_no_nl (no_nl_pySubWs _)]

/-- Every whitespace character of a cleaned page is a plain space. -/
theorem clean_text_space_eq (s : String) {c : Char} (h : c ∈ (clean_text s).data)
    (hs : isPySpace c = true) : c = ' ' := by
  rw [clean_text_data] at h
  exact pySubWsAux_space_eq _ false c (mem_of_mem_pyStripList h) hs

/-- The output of `clean_text` has fully collapsed whitespace. -/
theorem clean_text_collapsed (s : String) : collapsedWs (clean_text s).data = true := by
  rw [clean_text_data]
  exact collapsedWs_pyStripList (collapsedWs_pySubWsAux _ false)

/-- The output of `clean_text` contains no newline. -/
theorem clean_text_no_nl (s : String) : '\n' ∉ (clean_text s).data := by
  intro h
  exact absurd (clean_text_space_eq s h (by decide)) (by decide)

/-! ### Helper lemmas: extraction and chunking -/

/-- Every chunk produced by `create_chunks` is the stripped text of some
splitter segment of length at least 30, tagged with the page number and
extraction method of its page. -/
theorem create_chunks_mem {sp : String → List String} {pages : List PageRec} {title : String}
    {c : Chunk} (h : c ∈ create_chunks sp pages title) :
    ∃ p ∈ pages, ∃ i : Nat, ∃ ct : String, 30 ≤ (pyStrip ct).length ∧
      c = ⟨pyStrip ct, ⟨title, p.page, "", i, title, p.extraction_method⟩⟩ := by
  unfold create_chunks at h
  rw [List.mem_flatten] at h
  obtain ⟨L, hL, hcL⟩ := h
  rw [List.mem_map] at hL
  obtain ⟨p, hp, rfl⟩ := hL
  by_cases hg : p.text = "" ∨ (pyStrip p.text).length < 50
  · rw [if_pos hg] at hcL
    exact absurd hcL (List.not_mem_nil c)
  · rw [if_neg hg] at hcL
    rw [List.mem_filterMap] at hcL
    obtain ⟨ic, _hic, hsome⟩ := hcL
    by_cases h30 : (pyStrip ic.2).length < 30
    · rw [if_pos h30] at hsome
      exact absurd hsome (by simp)
    · rw [if_neg h30] at hsome
      refine ⟨p, hp, ic.1, ic.2, Nat.le_of_not_lt h30, ?_⟩
      exact (Option.some.injEq .. ▸ hsome).symm

/-- Every page record produced by `extract_pages` carries the method tag it
was called with. -/
theorem extract_pages_method {ok : Bool} {pgs : List (Option String)} {m : String}
    {q : PageRec} (h : q ∈ extract_pages ok pgs m) : q.extraction_method = m := by
  unfold extract_pages at h
  cases ok with
  | false => exact absurd h (by simp)
  | true =>
    rw [if_pos rfl, List.mem_filterMap] at h
    obtain ⟨⟨i, o⟩, _, hsome⟩ := h
    rcases o with _ | t
    · exact absurd hsome (by simp)
    · by_cases ht : pyStrip t = ""
      · simp only [ht, if_pos rfl] at hsome
        exact absurd hsome (by simp)
      · simp only [if_neg ht] at hsome
        cases Option.some.injEq .. ▸ hsome
        rfl

/-- Every processed page of a document comes from the strategy chosen at
document level (pdfplumber if it yielded any page, PyPDF2 otherwise), with
its page number and method tag unchanged by cleaning. -/
theorem extract_and_process_mem {f : PdfFile} {p : PageRec}
    (h : p ∈ extract_and_process_pdf f) :
    ∃ q ∈ (if extract_text_with_pdfplumber f = [] then extract_text_with_pypdf2 f
           else extract_text_with_pdfplumber f),
      p.page = q.page ∧ p.extraction_method = q.extraction_method := by
  unfold extract_and_process_pdf at h
  by_cases h1 :
      (if extract_text_with_pdfplumber f = [] then extract_text_with_pypdf2 f
       else extract_text_with_pdfplumber f) = []
  · rw [if_pos h1] at h
    exact absurd h (List.not_mem_nil p)
  · rw [if_neg h1] at h
    obtain ⟨hmem, _⟩ := List.mem_filter.mp h
    rw [List.mem_map] at hmem
    obtain ⟨q, hq, rfl⟩ := hmem
    exact ⟨q, hq, rfl, rfl⟩

/-! ### Helper lemmas: batch orchestration -/

/-- If every file of the batch is up to date in the ledger, the whole run
only increments the skip counter: the ledger, the chunk total and the error
list are untouched. -/
theorem process_all_skip_all (env : Env) (files : List PdfFile) :
    ∀ st : IngestState,
      (∀ f ∈ files, should_process_file env st.processedFiles f = false) →
      (process_all_pdfs env files st).processedFiles = st.processedFiles ∧
      (process_all_pdfs env files st).stats.total_chunks = st.stats.total_chunks ∧
      (process_all_pdfs env files st).stats.skipped_pdfs =
        st.stats.skipped_pdfs + files.length ∧
      (process_all_pdfs env files st).stats.errors = st.stats.errors := by
  induction files with
  | nil => intro st _; exact ⟨rfl, rfl, rfl, rfl⟩
  | cons f rest ih =>
    intro st h
    have hf : should_process_file env st.processedFiles f = false := h f (by simp)
    have hstep : process_single_pdf env st f =
        (0, { st with stats := { st.stats with skipped_pdfs := st.stats.skipped_pdfs + 1 } }) := by
      simp [process_single_pdf, hf]
    have hchain : process_all_pdfs env (f :: rest) st =
        process_all_pdfs env rest (process_single_pdf env st f).2 := rfl
    have h2 : (process_single_pdf env st f).2 =
        { st with stats := { st.stats with skipped_pdfs := st.stats.skipped_pdfs + 1 } } := by
      rw [hstep]
    rw [hchain, h2]
    obtain ⟨ha, hb, hc, hd⟩ :=
      ih { st with stats := { st.stats with skipped_pdfs := st.stats.skipped_pdfs + 1 } }
        (fun g hg => h g (List.mem_cons_of_mem _ hg))
    refine ⟨ha, hb, ?_, hd⟩
    rw [hc]
    show st.stats.skipped_pdfs + 1 + rest.length = st.stats.skipped_pdfs + (rest.length + 1)
    omega

/-! ### Helper lemmas: deduplication -/

/-- A string with a non-empty token set is a non-empty string. -/
theorem token_set_nonempty_length {s : String} (h : token_set s ≠ ∅) : 0 < s.length := by
  cases s with
  | mk data =>
    cases data with
    | nil => exact absurd rfl h
    | cons c tl => simp [String.length]

/-- Jaccard similarity is symmetric. -/
theorem jaccard_comm (s t : String) : jaccard s t = jaccard t s := by
  unfold jaccard
  rw [Finset.inter_comm, Finset.union_comm]

/-- If the Jaccard similarity of two strings exceeds a non-negative
threshold, then both token sets meet, the union is non-empty, and both
strings are non-empty — exactly the guards checked by `deduplicate_chunks`. -/
theorem jaccard_gt_facts {th : ℚ} (h0 : 0 ≤ th) {s t : String}
    (h : th < jaccard s t) :
    0 < (token_set s ∩ token_set t).card ∧ 0 < (token_set s ∪ token_set t).card ∧
      0 < s.length ∧ 0 < t.length := by
  have hnum : 0 < (token_set s ∩ token_set t).card := by
    by_contra hn
    have hz : (token_set s ∩ token_set t).card = 0 := by omega
    rw [jaccard, hz] at h
    simp only [Int.ofNat_zero, Rat.mkRat_eq_div, Int.cast_zero, zero_div] at h
    exact absurd (lt_of_le_of_lt h0 h) (lt_irrefl 0)
  have hsub : (token_set s ∩ token_set t) ⊆ (token_set s ∪ token_set t) :=
    Finset.Subset.trans Finset.inter_subset_left Finset.subset_union_left
  have hden : 0 < (token_set s ∪ token_set t).card :=
    lt_of_lt_of_le hnum (Finset.card_le_card hsub)
  obtain ⟨x, hx⟩ := Finset.card_pos.mp hnum
  have hxs : x ∈ token_set s := (Finset.mem_inter.mp hx).1
  have hxt : x ∈ token_set t := (Finset.mem_inter.mp hx).2
  refine ⟨hnum, hden, ?_, ?_⟩
  · exact token_set_nonempty_length (fun he => by rw [he] at hxs; exact absurd hxs (by simp))
  · exact token_set_nonempty_length (fun he => by rw [he] at hxt; exact absurd hxt (by simp))

/-- The duplicate check succeeds whenever the similarity exceeds a
non-negative threshold: the length and union guards are then automatic. -/
theorem is_dup_pair_of_gt {th : ℚ} (h0 : 0 ≤ th) {cand ex : Chunk}
    (h : th < jaccard cand.page_content ex.page_content) :
    is_dup_pair th cand ex = true := by
  obtain ⟨_, hden, hc, he⟩ := jaccard_gt_facts h0 h
  simp [is_dup_pair, hc, he, hden, h]

/-- Conversely, a successful duplicate check means the similarity exceeds
the threshold. -/
theorem gt_of_is_dup_pair {th : ℚ} {cand ex : Chunk}
    (h : is_dup_pair th cand ex = true) :
    th < jaccard cand.page_content ex.page_content := by
  simp only [is_dup_pair, Bool.and_eq_true, decide_eq_true_eq] at h
  exact h.2.2

/-- A failed duplicate check means the similarity does not exceed the
threshold, provided the threshold is non-negative. -/
theorem not_gt_of_is_dup_pair_false {th : ℚ} (h0 : 0 ≤ th) {cand ex : Chunk}
    (h : is_dup_pair th cand ex = false) :
    ¬ th < jaccard cand.page_content ex.page_content := by
  intro hj
  rw [is_dup_pair_of_gt h0 hj] at h
  exact Bool.true_eq_false ▸ h ▸ rfl

/-- A candidate with an empty token set never registers as a duplicate. -/
theorem is_dup_pair_empty_tokens {th : ℚ} (h0 : 0 ≤ th) {cand ex : Chunk}
    (h : token_set cand.page_content = ∅) : is_dup_pair th cand ex = false := by
  have hj : jaccard cand.page_content ex.page_content = 0 := by
    rw [jaccard, h]
    simp
  have : ¬ th < jaccard cand.page_content ex.page_content := by
    rw [hj]
    exact not_lt_of_le h0
  simp [is_dup_pair, this]

/-- The accepted list only grows during the deduplication loop. -/
theorem dedupAux_mono {th : ℚ} {c : Chunk} :
    ∀ (rest ded : List Chunk), c ∈ ded → c ∈ dedupAux th ded rest := by
  intro rest
  induction rest with
  | nil => intro ded h; exact h
  | cons x rest' ih =>
    intro ded h
    unfold dedupAux
    by_cases hany : ded.any (fun e => is_dup_pair th x e) = true
    · rw [if_pos hany]
      exact ih ded h
    · rw [if_neg hany]
      exact ih (ded ++ [x]) (List.mem_append_left _ h)

/-- The deduplication loop keeps the accepted list pairwise non-duplicate:
no accepted chunk exceeds the threshold against a later accepted one. -/
theorem dedupAux_pairwise {th : ℚ} (h0 : 0 ≤ th) :
    ∀ (rest ded : List Chunk),
      List.Pairwise (fun x y => ¬ th < jaccard x.page_content y.page_content) ded →
      List.Pairwise (fun x y => ¬ th < jaccard x.page_content y.page_content)
        (dedupAux th ded rest) := by
  intro rest
  induction rest with
  | nil => intro ded h; exact h
  | cons x rest' ih =>
    intro ded h
    unfold dedupAux
    by_cases hany : ded.any (fun e => is_dup_pair th x e) = true
    · rw [if_pos hany]
      exact ih ded h
    · rw [if_neg hany]
      refine ih (ded ++ [x]) ?_
      rw [List.pairwise_append]
      refine ⟨h, List.pairwise_singleton _ _, ?_⟩
      intro a ha b hb
      rw [List.mem_singleton.mp hb]
      have hfa : is_dup_pair th x a = false :=
        Bool.eq_false_iff.mpr ((List.any_eq_false.mp (Bool.eq_false_iff.mpr hany)) a ha)
      intro hlt
      exact not_gt_of_is_dup_pair_false h0 hfa (jaccard_comm _ _ ▸ hlt)

/-- A candidate with an empty token set always survives the deduplication
loop. -/
theorem dedupAux_empty_tokens_mem {th : ℚ} (h0 : 0 ≤ th) {c : Chunk}
    (hts : token_set c.page_content = ∅) :
    ∀ (rest ded : List Chunk), c ∈ ded ∨ c ∈ rest → c ∈ dedupAux th ded rest := by
  intro rest
  induction rest with
  | nil =>
    intro ded h
    rcases h with h | h
    · exact h
    · exact absurd h (List.not_mem_nil c)
  | cons x rest' ih =>
    intro ded h
    unfold dedupAux
    rcases h with h | h
    · by_cases hany : ded.any (fun e => is_dup_pair th x e) = true
      · rw [if_pos hany]; exact ih ded (Or.inl h)
      · rw [if_neg hany]; exact ih (ded ++ [x]) (Or.inl (List.mem_append_left _ h))
    · rcases List.mem_cons.mp h with rfl | h'
      · have hany : ded.any (fun e => is_dup_pair th c e) = false :=
          List.any_eq_false.mpr (fun e _ => by
            rw [is_dup_pair_empty_tokens h0 hts]
            exact Bool.false_ne_true)
        rw [hany]
        simp only [Bool.false_eq_true, if_false]
        exact ih (ded ++ [c]) (Or.inl (List.mem_append_right _ (List.mem_singleton_self c)))
      · by_cases hany : ded.any (fun e => is_dup_pair th x e) = true
        · rw [if_pos hany]; exact ih ded (Or.inr h')
        · rw [if_neg hany]; exact ih (ded ++ [x]) (Or.inr h')

/-! ### The claims -/

/-- C1, counterexample to the claim as stated: for a document with two
identical usable pages (and the force flag set so the ledger is bypassed),
`create_chunks` produces two chunks with identical text — Jaccard similarity
1 > 0.9 — and `process_single_pdf` still reports both as stored (the store
receives the full list and the returned chunk count is 2); applying the
repository's own `deduplicate_chunks` to that list would have dropped the
second chunk.  The near-duplicate chunk is therefore stored, contradicting
the claim that it is dropped before reaching the store. -/
theorem claim1_counterexample :
    (chunks_for env_force file_dup).map Chunk.page_content = [tAlpha, tAlpha] ∧
    mkRat 9 10 < jaccard tAlpha tAlpha ∧
    (process_single_pdf env_force st0 file_dup).1 = 2 ∧
    deduplicate_chunks (chunks_for env_force file_dup) (mkRat 9 10) =
      (chunks_for env_force file_dup).take 1 := by
  refine ⟨by decide, by decide, by decide, by decide⟩

/-- C1, amended: `process_single_pdf` hands the chunk stream to the external
store exactly as produced by `create_chunks`, with no deduplication pass in
between (`deduplicate_chunks` exists in the codebase but is never invoked by
the pipeline): whenever a file reaches the store stage, the reported chunk
count is the length of the raw `create_chunks` output if the store accepts
it, and 0 if it rejects it. -/
theorem claim1_store_receives_chunker_output (env : Env) (st : IngestState) (f : PdfFile)
    (h1 : should_process_file env st.processedFiles f = true)
    (h2 : extract_and_process_pdf f ≠ [])
    (h3 : chunks_for env f ≠ []) :
    (process_single_pdf env st f).1 =
      if env.store (chunks_for env f) = true then (chunks_for env f).length else 0 := by
  have h1' : ¬ should_process_file env st.processedFiles f = false := by simp [h1]
  unfold process_single_pdf
  rw [if_neg h1', if_neg h2, if_neg h3]
  by_cases hs : env.store (chunks_for env f) = true
  · rw [if_pos hs, if_pos hs]
  · rw [if_neg hs, if_neg hs]

/-- C1, witness: the amended theorem applied to the duplicate-page fixture. -/
theorem claim1_witness :
    (process_single_pdf env_force st0 file_dup).1 =
      if env_force.store (chunks_for env_force file_dup) = true
      then (chunks_for env_force file_dup).length else 0 :=
  claim1_store_receives_chunker_output env_force st0 file_dup (by decide) (by decide)
    (by decide)

/-- C2, counterexample to the claim as stated: in the exact scenario of the
claim — pdfplumber extracts pages 1 and 3 but not page 2, while PyPDF2 would
extract all three pages — the pipeline produces chunks only for pages 1 and
3, both with pdfplumber provenance: there is no page-2 chunk at all, because
the PyPDF2 fallback runs only when pdfplumber yields zero pages for the
whole document. -/
theorem claim2_counterexample :
    (extract_text_with_pdfplumber file_fallback).map PageRec.page = [1, 3] ∧
    (extract_text_with_pypdf2 file_fallback).map PageRec.page = [1, 2, 3] ∧
    (chunks_for env_force file_fallback).map
        (fun c => (c.metadata.page, c.metadata.extraction_method)) =
      [(1, "pdfplumber"), (3, "pdfplumber")] := by
  refine ⟨by decide, by decide, by decide⟩

/-- C2, amended: extraction fallback is per document, not per page.  Every
chunk of a document carries the provenance of the single strategy chosen at
document level (PyPDF2 exactly when pdfplumber yielded zero pages), and its
page number is one of the pages that strategy extracted; a page the chosen
strategy could not extract yields no chunks. -/
theorem claim2_provenance_per_document (env : Env) (f : PdfFile) (c : Chunk)
    (h : c ∈ chunks_for env f) :
    c.metadata.extraction_method =
      (if extract_text_with_pdfplumber f = [] then "pypdf2" else "pdfplumber") ∧
    c.metadata.page ∈
      ((if extract_text_with_pdfplumber f = [] then extract_text_with_pypdf2 f
        else extract_text_with_pdfplumber f).map PageRec.page) := by
  unfold chunks_for at h
  obtain ⟨p, hp, i, ct, _, rfl⟩ := create_chunks_mem h
  obtain ⟨q, hq, hpage, hmethod⟩ := extract_and_process_mem hp
  constructor
  · show p.extraction_method = _
    rw [hmethod]
    by_cases h1 : extract_text_with_pdfplumber f = []
    · rw [if_pos h1]
      rw [if_pos h1] at hq
      exact extract_pages_method hq
    · rw [if_neg h1]
      rw [if_neg h1] at hq
      exact extract_pages_method hq
  · show p.page ∈ _
    rw [hpage]
    exact List.mem_map_of_mem PageRec.page hq

/-- C2, witness: the amended theorem applied to the page-1 chunk of the
fallback-scenario fixture. -/
theorem claim2_witness :
    chunk_fallback_w.metadata.extraction_method =
      (if extract_text_with_pdfplumber file_fallback = [] then "pypdf2" else "pdfplumber") ∧
    chunk_fallback_w.metadata.page ∈
      ((if extract_text_with_pdfplumber file_fallback = [] then
          extract_text_with_pypdf2 file_fallback
        else extract_text_with_pdfplumber file_fallback).map PageRec.page) :=
  claim2_provenance_per_document env_force file_fallback chunk_fallback_w (by decide)

/-- C3, counterexample to the claim as stated: an input with a blank-line
paragraph boundary between two surviving lines is cleaned to a single line
joined by a single space — the output contains no newline at all, so the
paragraph boundary is not preserved as a blank-line break. -/
theorem claim3_counterexample :
    clean_text "First paragraph line.\n\nSecond paragraph text." =
      "First paragraph line. Second paragraph text." ∧
    ((clean_text "First paragraph line.\n\nSecond paragraph text.").data.all
      (fun c => !(c == '\n'))) = true := by
  refine ⟨by decide, by decide⟩

/-- C3, amended: `clean_text` rejoins the surviving lines such that all
whitespace — internal runs and the newlines between lines alike — collapses
to single `' '` spaces: in the output every whitespace character is a plain
space and no two adjacent characters are whitespace.  Blank lines are
dropped during line filtering and paragraph boundaries are not preserved. -/
theorem claim3_whitespace_fully_collapsed (s : String) :
    collapsedWs (clean_text s).data = true :=
  clean_text_collapsed s

/-- C4, failing-input evaluation (code bug): on a 10-page document where 8
pages share the first non-empty line "Chapter 3" (and the other two first
lines are distinct), `detect_repeated_headers_footers` detects nothing —
there are 3 distinct first lines among 10 and the code requires
`len(set(first_lines)) < len(first_lines) * 0.3`, i.e. strictly fewer than 3
(in binary64, `10 * 0.3 == 3.0` exactly) — so "Chapter 3" survives cleaning
as the first line of page 1, although 80% of the pages share it and the
code's own comment says 70% should suffice. -/
theorem claim4_header_detection_fails_at_80_percent :
    cpages.length = 10 ∧
    cpages.countP (fun p => first_nonempty_line p.text == some "Chapter 3") = 8 ∧
    detect_repeated_headers_footers cpages = [] ∧
    first_line (clean_text (remove_headers_footers "Chapter 3"
      (detect_repeated_headers_footers cpages))) = "Chapter 3" := by
  refine ⟨by decide, by decide, by decide, by decide⟩

/-- C5: `should_process_file` is true whenever the force flag is set, and
otherwise — provided the checksum computation succeeded, i.e. returned a
non-empty digest — it is true iff the ledger has no entry for the file's
path or the stored checksum differs from the current one. -/
theorem claim5_should_process_file_spec (env : Env) (led : List (String × String))
    (f : PdfFile) :
    (env.force = true → should_process_file env led f = true) ∧
    (env.force = false → env.md5 f.bytes ≠ "" →
      (should_process_file env led f = true ↔
        ledger_lookup led f.path = none ∨
          ∃ s, ledger_lookup led f.path = some s ∧ s ≠ env.md5 f.bytes)) := by
  constructor
  · intro hforce
    simp [should_process_file, hforce]
  · intro hforce hcur
    have hcur' : ¬ (env.md5 f.bytes == "") = true := by
      simpa using hcur
    simp only [should_process_file, hforce, Bool.false_eq_true, if_false, if_neg hcur',
      bne_iff_ne, ne_eq, decide_eq_true_eq]
    cases hl : ledger_lookup led f.path with
    | none =>
      have hg : ledger_get led f.path = "" := by
        simp [ledger_get, hl]
      rw [hg]
      exact iff_of_true hcur (Or.inl rfl)
    | some s =>
      have hg : ledger_get led f.path = s := by
        simp [ledger_get, hl]
      rw [hg]
      constructor
      · intro hne
        exact Or.inr ⟨s, rfl, fun he => hne he.symm⟩
      · rintro (hnone | ⟨s2, hs2, hne⟩)
        · exact absurd hnone (by simp)
        · cases Option.some.injEq .. ▸ hs2
          exact fun he => hne he.symm

/-- C5, witness: a file whose stored checksum differs from the current one
must be processed. -/
theorem claim5_witness :
    should_process_file env_ok [("pdfs/guide_one.pdf", "old")] file_good = true := by
  have h := (claim5_should_process_file_spec env_ok [("pdfs/guide_one.pdf", "old")]
    file_good).2 rfl (by decide)
  exact h.mpr (Or.inr ⟨"old", by decide, by decide⟩)

/-- C6: the ledger is written only after the store accepts the chunks, and
then with the file's checksum; if extraction, chunking or the store fails,
the ledger is untouched, one error message is appended, zero chunks are
reported, the file is still due for processing on the next run, and the
batch continues with the remaining files. -/
theorem claim6_ledger_update_order (env : Env) (st : IngestState) (f : PdfFile) :
    ((process_single_pdf env st f).2.processedFiles ≠ st.processedFiles →
      env.store (chunks_for env f) = true ∧
        (process_single_pdf env st f).2.processedFiles =
          ledger_set st.processedFiles f.path (env.md5 f.bytes)) ∧
    (should_process_file env st.processedFiles f = true →
      extract_and_process_pdf f = [] →
        (process_single_pdf env st f).2.processedFiles = st.processedFiles ∧
        (process_single_pdf env st f).2.stats.errors =
          st.stats.errors ++ ["No text extracted from " ++ file_name_of f]) ∧
    (should_process_file env st.processedFiles f = true →
      extract_and_process_pdf f ≠ [] → chunks_for env f = [] →
        (process_single_pdf env st f).2.processedFiles = st.processedFiles ∧
        (process_single_pdf env st f).2.stats.errors =
          st.stats.errors ++ ["No chunks created from " ++ file_name_of f]) ∧
    (should_process_file env st.processedFiles f = true →
      extract_and_process_pdf f ≠ [] → chunks_for env f ≠ [] →
      env.store (chunks_for env f) = false →
        (process_single_pdf env st f).2.processedFiles = st.processedFiles ∧
        (process_single_pdf env st f).2.stats.errors =
          st.stats.errors ++ ["Failed to add " ++ file_name_of f ++ " to ChromaDB"] ∧
        (process_single_pdf env st f).1 = 0 ∧
        should_process_file env (process_single_pdf env st f).2.processedFiles f = true) ∧
    (∀ rest : List PdfFile,
      process_all_pdfs env (f :: rest) st =
        process_all_pdfs env rest (process_single_pdf env st f).2) := by
  refine ⟨?_, ?_, ?_, ?_, fun _ => rfl⟩
  · intro hne
    by_cases hA : should_process_file env st.processedFiles f = false
    · exact absurd (by simp [process_single_pdf, hA]) hne
    · by_cases hB : extract_and_process_pdf f = []
      · exact absurd (by simp [process_single_pdf, hA, hB, add_error]) hne
      · by_cases hC : chunks_for env f = []
        · exact absurd (by simp [process_single_pdf, hA, hB, hC, add_error]) hne
        · by_cases hD : env.store (chunks_for env f) = true
          · exact ⟨hD, by simp [process_single_pdf, hA, hB, hC, hD]⟩
          · exact absurd (by simp [process_single_pdf, hA, hB, hC, hD, add_error]) hne
  · intro hA hB
    have hA' : ¬ should_process_file env st.processedFiles f = false := by simp [hA]
    exact ⟨by simp [process_single_pdf, hA', hB, add_error],
      by simp [process_single_pdf, hA', hB, add_error]⟩
  · intro hA hB hC
    have hA' : ¬ should_process_file env st.processedFiles f = false := by simp [hA]
    exact ⟨by simp [process_single_pdf, hA', hB, hC, add_error],
      by simp [process_single_pdf, hA', hB, hC, add_error]⟩
  · intro hA hB hC hD
    have hA' : ¬ should_process_file env st.processedFiles f = false := by simp [hA]
    have hD' : ¬ env.store (chunks_for env f) = true := by simp [hD]
    have hled : (process_single_pdf env st f).2.processedFiles = st.processedFiles := by
      simp [process_single_pdf, hA', hB, hC, hD', add_error]
    refine ⟨hled, ?_, ?_, ?_⟩
    · simp [process_single_pdf, hA', hB, hC, hD', add_error]
    · simp [process_single_pdf, hA', hB, hC, hD', add_error]
    · rw [hled]
      exact hA

/-- C6, witness: a rejecting store leaves the ledger and retry status
untouched while recording the failure; an accepting store updates the
ledger with the file's checksum. -/
theorem claim6_witness :
    ((process_single_pdf env_rej st0 file_good).2.processedFiles = st0.processedFiles ∧
      (process_single_pdf env_rej st0 file_good).2.stats.errors =
        st0.stats.errors ++ ["Failed to add " ++ file_name_of file_good ++ " to ChromaDB"] ∧
      (process_single_pdf env_rej st0 file_good).1 = 0 ∧
      should_process_file env_rej
        (process_single_pdf env_rej st0 file_good).2.processedFiles file_good = true) ∧
    (env_ok.store (chunks_for env_ok file_good) = true ∧
      (process_single_pdf env_ok st0 file_good).2.processedFiles =
        ledger_set st0.processedFiles file_good.path (env_ok.md5 file_good.bytes)) :=
  ⟨(claim6_ledger_update_order env_rej st0 file_good).2.2.2.1 (by decide) (by decide)
      (by decide) (by decide),
    (claim6_ledger_update_order env_ok st0 file_good).1 (by decide)⟩

/-- C7: every chunk produced by `create_chunks` — for any splitter, pages
and title — has trimmed `page_content` of length at least 30, and is neither
empty nor whitespace-only. -/
theorem claim7_chunk_floor (sp : String → List String) (pages : List PageRec)
    (title : String) (c : Chunk) (h : c ∈ create_chunks sp pages title) :
    30 ≤ c.page_content.length ∧ pyStrip c.page_content = c.page_content ∧
      ∃ ch ∈ c.page_content.data, isPySpace ch = false := by
  obtain ⟨p, _, i, ct, h30, rfl⟩ := create_chunks_mem h
  refine ⟨h30, ?_, ?_⟩
  · show (⟨pyStripList (pyStripList ct.data)⟩ : String) = ⟨pyStripList ct.data⟩
    rw [pyStripList_idem]
  · show ∃ ch ∈ pyStripList ct.data, isPySpace ch = false
    rcases hd : pyStripList ct.data with _ | ⟨ch, r⟩
    · have hlen : (pyStrip ct).length = 0 := by
        simp [pyStrip, hd, String.length]
      omega
    · exact ⟨ch, List.mem_cons_self ch r, pyStripList_head_not_space hd⟩

/-- C7, witness: the chunk floor invariant at a concrete page and identity
splitter. -/
theorem claim7_witness :
    30 ≤ chunk_floor_w.page_content.length ∧
    pyStrip chunk_floor_w.page_content = chunk_floor_w.page_content ∧
      ∃ ch ∈ chunk_floor_w.page_content.data, isPySpace ch = false :=
  claim7_chunk_floor (fun s => [s]) [page_floor_w] "T" chunk_floor_w (by decide)

/-- C8, counterexample to the claim as stated on arbitrary chunk lists: with
`chunk_a` = tokens a…s, `chunk_b` = tokens a…t and `chunk_c` = tokens b…t,
the pair (`chunk_b`, `chunk_c`) has Jaccard similarity 19/20 > 9/10, yet on
the list `[chunk_a, chunk_b, chunk_c]` it is the *later*-indexed `chunk_c`
that survives and the earlier `chunk_b` that is dropped: `chunk_b` is
eliminated as a duplicate of `chunk_a` (19/20), after which `chunk_c` is
only compared against `chunk_a` (18/20 = 0.9, not above the threshold). -/
theorem claim8_counterexample :
    mkRat 9 10 < jaccard chunk_b.page_content chunk_c.page_content ∧
    deduplicate_chunks [chunk_a, chunk_b, chunk_c] (mkRat 9 10) = [chunk_a, chunk_c] := by
  refine ⟨by decide, by decide⟩

/-- C8, amended: duplicate elimination is relative to the *accepted* set, so
the stated pairwise behavior holds on a two-element list: above the
threshold only the earlier chunk survives, at or below it both survive.  On
arbitrary lists, a candidate with an empty token set never registers as a
duplicate and always survives, and the surviving list is pairwise
non-duplicate — no survivor exceeds the threshold against a later one. -/
theorem claim8_dedup_properties (th : ℚ) (a b c : Chunk) (chunks : List Chunk)
    (h0 : 0 ≤ th) :
    (th < jaccard a.page_content b.page_content → deduplicate_chunks [a, b] th = [a]) ∧
    (¬ th < jaccard a.page_content b.page_content →
      deduplicate_chunks [a, b] th = [a, b]) ∧
    (token_set c.page_content = ∅ → c ∈ chunks → c ∈ deduplicate_chunks chunks th) ∧
    List.Pairwise (fun x y => ¬ th < jaccard x.page_content y.page_content)
      (deduplicate_chunks chunks th) := by
  refine ⟨?_, ?_, ?_, ?_⟩
  · intro hj
    have hd : is_dup_pair th b a = true := is_dup_pair_of_gt h0 (jaccard_comm _ _ ▸ hj)
    show dedupAux th [a] [b] = [a]
    simp [dedupAux, hd]
  · intro hj
    have hd : is_dup_pair th b a = false := by
      cases he : is_dup_pair th b a
      · rfl
      · exact absurd (jaccard_comm _ _ ▸ gt_of_is_dup_pair he) hj
    show dedupAux th [a] [b] = [a, b]
    simp [dedupAux, hd]
  · intro hts hmem
    cases chunks with
    | nil => exact absurd hmem (List.not_mem_nil c)
    | cons c0 rest =>
      show c ∈ dedupAux th [c0] rest
      rcases List.mem_cons.mp hmem with rfl | h'
      · exact dedupAux_empty_tokens_mem h0 hts rest [c] (Or.inl (List.mem_singleton_self c))
      · exact dedupAux_empty_tokens_mem h0 hts rest [c0] (Or.inr h')
  · cases chunks with
    | nil => exact List.Pairwise.nil
    | cons c0 rest =>
      show List.Pairwise _ (dedupAux th [c0] rest)
      exact dedupAux_pairwise h0 rest [c0] (List.pairwise_singleton _ _)

/-- C8, witness: all four amended properties at concrete chunks — a pair
above the threshold keeps only the earlier chunk, a pair at exactly 9/10
keeps both, a whitespace-only candidate survives, and the survivors of the
three-chunk list are pairwise below the threshold. -/
theorem claim8_witness :
    deduplicate_chunks [chunk_a, chunk_b] (mkRat 9 10) = [chunk_a] ∧
    deduplicate_chunks [chunk_a, chunk_c] (mkRat 9 10) = [chunk_a, chunk_c] ∧
    chunk_ws ∈ deduplicate_chunks [chunk_a, chunk_ws] (mkRat 9 10) ∧
    List.Pairwise
      (fun x y => ¬ mkRat 9 10 < jaccard x.page_content y.page_content)
      (deduplicate_chunks [chunk_a, chunk_b, chunk_c] (mkRat 9 10)) :=
  ⟨(claim8_dedup_properties (mkRat 9 10) chunk_a chunk_b chunk_ws
      [chunk_a, chunk_ws] (by decide)).1 (by decide),
    (claim8_dedup_properties (mkRat 9 10) chunk_a chunk_c chunk_ws
      [chunk_a, chunk_ws] (by decide)).2.1 (by decide),
    (claim8_dedup_properties (mkRat 9 10) chunk_a chunk_b chunk_ws
      [chunk_a, chunk_ws] (by decide)).2.2.1 (by decide) (by decide),
    (claim8_dedup_properties (mkRat 9 10) chunk_a chunk_b chunk_ws
      [chunk_a, chunk_b, chunk_c] (by decide)).2.2.2⟩

/-- C9, counterexample to the claim as stated: for a directory containing a
single unreadable PDF, both runs fail at extraction (the ledger never
records the file), so on the second run the file is *reattempted*, not
skipped: the skip count is 0, not the total file count 1. -/
theorem claim9_counterexample :
    ¬ ((process_all_pdfs env_ok [file_broken]
          ⟨(process_all_pdfs env_ok [file_broken] st0).processedFiles,
            initialStats⟩).stats.total_chunks = 0 ∧
       (process_all_pdfs env_ok [file_broken]
          ⟨(process_all_pdfs env_ok [file_broken] st0).processedFiles,
            initialStats⟩).stats.skipped_pdfs = [file_broken].length) := by
  decide

/-- C9, amended: if after the first run every file of the unchanged
directory is current in the ledger (no file failed), then the second run
creates zero chunks and skips exactly the total number of files. -/
theorem claim9_second_run_idempotent (env : Env) (files : List PdfFile)
    (led0 : List (String × String))
    (h : ∀ f ∈ files, should_process_file env
        (process_all_pdfs env files ⟨led0, initialStats⟩).processedFiles f = false) :
    (process_all_pdfs env files
        ⟨(process_all_pdfs env files ⟨led0, initialStats⟩).processedFiles,
          initialStats⟩).stats.total_chunks = 0 ∧
    (process_all_pdfs env files
        ⟨(process_all_pdfs env files ⟨led0, initialStats⟩).processedFiles,
          initialStats⟩).stats.skipped_pdfs = files.length := by
  obtain ⟨_, hb, hc, _⟩ := process_all_skip_all env files
    ⟨(process_all_pdfs env files ⟨led0, initialStats⟩).processedFiles, initialStats⟩ h
  refine ⟨hb, ?_⟩
  rw [hc]
  exact Nat.zero_add _

/-- C9, witness: a directory with one readable file whose first run stores
and records it; the second run skips it and creates nothing. -/
theorem claim9_witness :
    (process_all_pdfs env_ok [file_good]
        ⟨(process_all_pdfs env_ok [file_good] ⟨[], initialStats⟩).processedFiles,
          initialStats⟩).stats.total_chunks = 0 ∧
    (process_all_pdfs env_ok [file_good]
        ⟨(process_all_pdfs env_ok [file_good] ⟨[], initialStats⟩).processedFiles,
          initialStats⟩).stats.skipped_pdfs = [file_good].length :=
  claim9_second_run_idempotent env_ok [file_good] [] (by decide)

/-- C10: the output of `clean_text` contains no newline character — the
final whitespace normalization replaces every whitespace run, including the
newlines used to rejoin lines, by a single space — so the chunker's
paragraph-break and line-break separators can never match inside cleaned
page text. -/
theorem claim10_clean_text_no_newline (s : String) :
    ((clean_text s).data.all (fun c => !(c == '\n'))) = true := by
  rw [List.all_eq_true]
  intro x hx
  simp only [Bool.not_eq_true', beq_eq_false_iff_ne, ne_eq]
  intro heq
  exact clean_text_no_nl s (heq ▸ hx)

end PujaSpec

